import Mathlib

/-!
Verification development for the `eguard` request-time authorization filter
(crates `eguard-core` and `eguard-node`).

Modelling conventions:
* Rust `String`/`&str` become Lean `String`; `Vec<T>` becomes `List T`;
  `Option<T>` becomes `Option T`; fallible functions (`anyhow::Result`,
  `napi::Result`) become `Except`.
* `f32`/`f64` trust scores are modelled as `ℚ` (the code only ever compares
  them with `>=` and formats them into a message; the `f64 -> f32` narrowing
  in the Node binding is modelled as the identity).  The `Display` rendering
  of a score is modelled by `toString : ℚ → String`.
* The `regex` crate is modelled by a small executable engine: a pattern is
  parsed into an abstract syntax tree over the subset
  (literal characters, `\` escapes, `.`, `|`, `*`, `+`, `?`, `(...)`, a
  leading `^` anchor and a trailing `$` anchor).  `Regex::is_match` performs
  an *unanchored search* — it succeeds iff the pattern matches some substring
  of the haystack — which the model reproduces; anchors restrict the match
  to start at the beginning / end at the end of the haystack.
* The outbound HTTP call of `fetch_trust` is external I/O; it is modelled by
  an explicit `HttpOutcome` argument describing what the network returned:
  either a transport failure (connection error / timeout), or a response
  carrying its status code together with the outcomes of the two possible
  body reads the code can perform (`.json::<TrustResponse>()` and `.text()`).
* `reqwest::Client::builder().timeout(..).build()` is modelled as infallible:
  `Duration::from_millis` accepts every `u64` and client construction only
  fails for environmental reasons outside the model.
-/

/-- Empty-language-aware regular-expression ASTs (the compiled form of a
route pattern, minus anchors which are kept alongside). -/
inductive Regex where
  | fail : Regex
  | eps : Regex
  | char (c : Char) : Regex
  | any : Regex
  | concat (a b : Regex) : Regex
  | alt (a b : Regex) : Regex
  | star (a : Regex) : Regex
deriving DecidableEq, Repr

namespace Regex

/-- Does the regex accept the empty string? -/
def nullable : Regex → Bool
  | .fail => false
  | .eps => true
  | .char _ => false
  | .any => false
  | .concat a b => nullable a && nullable b
  | .alt a b => nullable a || nullable b
  | .star _ => true

/-- Brzozowski derivative with respect to one character. -/
def deriv : Regex → Char → Regex
  | .fail, _ => .fail
  | .eps, _ => .fail
  | .char c, d => if c = d then .eps else .fail
  | .any, _ => .eps
  | .concat a b, d =>
      if nullable a then .alt (.concat (deriv a d) b) (deriv b d)
      else .concat (deriv a d) b
  | .alt a b, d => .alt (deriv a d) (deriv b d)
  | .star a, d => .concat (deriv a d) (.star a)

/-- The regex matches exactly the given character list. -/
def matches' (r : Regex) (cs : List Char) : Bool :=
  nullable (cs.foldl deriv r)

end Regex

/-- A compiled pattern: the core regex plus the anchoring information carried
by a leading `^` / trailing `$` in the pattern text. -/
structure CompiledPattern where
  anchorStart : Bool
  anchorEnd : Bool
  core : Regex
deriving DecidableEq, Repr

/-- Semantics of `Regex::is_match` from the `regex` crate: unanchored search.  The
pattern matches the haystack iff its core matches some contiguous substring,
where a leading `^` forces the substring to start at position 0 and a
trailing `$` forces it to end at the end of the haystack. -/
def CompiledPattern.isMatch (p : CompiledPattern) (s : String) : Bool :=
  let cs := s.data
  let n := cs.length
  let starts := if p.anchorStart then [0] else List.range (n + 1)
  starts.any fun i =>
    let stops := if p.anchorEnd then [n] else (List.range (n + 1)).filter (fun j => i ≤ j)
    stops.any fun j => p.core.matches' ((cs.drop i).take (j - i))

/-- Full-pattern matching: the core regex must match the *entire* haystack
(under which anchors are vacuous).  This is the reading the spec asserts for
route matching; it is compared against `CompiledPattern.isMatch` below. -/
def CompiledPattern.fullMatch (p : CompiledPattern) (s : String) : Bool :=
  p.core.matches' s.data

mutual

/-- Parse an alternation (`a|b|c`), the lowest-precedence level. -/
def parseAlt : Nat → List Char → Except String (Regex × List Char)
  | 0, _ => .error "pattern too deeply nested"
  | fuel + 1, cs => do
    let (r, rest) ← parseSeq fuel cs
    match rest with
    | '|' :: rest2 => do
      let (r2, rest3) ← parseAlt fuel rest2
      .ok (.alt r r2, rest3)
    | _ => .ok (r, rest)

/-- Parse a concatenation of repeated atoms. -/
def parseSeq : Nat → List Char → Except String (Regex × List Char)
  | 0, _ => .error "pattern too deeply nested"
  | fuel + 1, cs =>
    match cs with
    | [] => .ok (.eps, [])
    | ')' :: _ => .ok (.eps, cs)
    | '|' :: _ => .ok (.eps, cs)
    | _ => do
      let (r1, rest) ← parseRep fuel cs
      let (r2, rest2) ← parseSeq fuel rest
      .ok (.concat r1 r2, rest2)

/-- Parse one atom with an optional postfix quantifier. -/
def parseRep : Nat → List Char → Except String (Regex × List Char)
  | 0, _ => .error "pattern too deeply nested"
  | fuel + 1, cs => do
    let (r, rest) ← parseAtom fuel cs
    match rest with
    | '*' :: rest2 => .ok (.star r, rest2)
    | '+' :: rest2 => .ok (.concat r (.star r), rest2)
    | '?' :: rest2 => .ok (.alt r .eps, rest2)
    | _ => .ok (r, rest)

/-- Parse a single atom: a literal, an escape, `.`, or a group. -/
def parseAtom : Nat → List Char → Except String (Regex × List Char)
  | 0, _ => .error "pattern too deeply nested"
  | _ + 1, [] => .error "unexpected end of pattern"
  | fuel + 1, '(' :: rest => do
    let (r, rest2) ← parseAlt fuel rest
    match rest2 with
    | ')' :: rest3 => .ok (r, rest3)
    | _ => .error "unclosed group"
  | _ + 1, ')' :: _ => .error "unopened group"
  | _ + 1, '|' :: _ => .error "unexpected alternation"
  | _ + 1, '*' :: _ => .error "repetition operator missing expression"
  | _ + 1, '+' :: _ => .error "repetition operator missing expression"
  | _ + 1, '?' :: _ => .error "repetition operator missing expression"
  | _ + 1, '^' :: _ => .error "unsupported anchor position"
  | _ + 1, '$' :: _ => .error "unsupported anchor position"
  | _ + 1, '.' :: rest => .ok (.any, rest)
  | _ + 1, '\\' :: c :: rest => .ok (.char c, rest)
  | _ + 1, '\\' :: [] => .error "incomplete escape sequence"
  | _ + 1, c :: rest => .ok (.char c, rest)

end

/-- Does the character list end in a `$` that is not escaped by a single
preceding backslash? -/
def endsWithDollarAnchor (cs : List Char) : Bool :=
  match cs.reverse with
  | '$' :: rest => !(rest.headD ' ' == '\\')
  | _ => false

/-- Model of `Regex::new`: compile a pattern string, reporting invalid syntax as an
error message (the modelled subset of the `regex` crate's grammar). -/
def Regex.new (pat : String) : Except String CompiledPattern := do
  let cs0 := pat.data
  let (aStart, cs1) :=
    match cs0 with
    | '^' :: rest => (true, rest)
    | _ => (false, cs0)
  let (aEnd, cs2) :=
    if endsWithDollarAnchor cs1 then (true, cs1.dropLast) else (false, cs1)
  let (r, rest) ← parseAlt (4 * cs2.length + 8) cs2
  match rest with
  | [] => .ok ⟨aStart, aEnd, r⟩
  | _ => .error "unopened group"

/-! Core data model (from `crates/eguard-core/src/lib.rs`). -/

/-- One configured route rule (`pub struct SecureRoute`). -/
structure SecureRoute where
  path_pattern : String
  methods : Option (List String)
deriving DecidableEq, Repr

/-- Session-extraction configuration (`pub struct SessionExtraction`). -/
structure SessionExtraction where
  cookie_name : Option String
  header_name : Option String
  header_bearer : Bool
deriving DecidableEq, Repr

/-- Guard configuration (`pub struct EGuardConfig`); `f32` scores are
modelled as `ℚ`. -/
structure EGuardConfig where
  api_base_url : String
  api_key : String
  secure_routes : List SecureRoute
  session_extraction : SessionExtraction
  min_trust_score : ℚ
  timeout_ms : ℕ
deriving DecidableEq, Repr

/-- Default value of `timeout_ms` (from `serde(default)`). -/
def default_timeout_ms : ℕ := 1500

/-- ASCII uppercasing of a string (model of Rust `str::to_uppercase`,
which agrees with it on ASCII input), written over the character list so
that it reduces structurally. -/
def toUpperStr (s : String) : String :=
  ⟨s.data.map Char.toUpper⟩

/-- ASCII lowercasing of a string (model of Rust `str::to_ascii_lowercase`). -/
def toLowerStr (s : String) : String :=
  ⟨s.data.map Char.toLower⟩

/-- Whitespace trimming over a character list (model of Rust `str::trim`,
which agrees with it on ASCII whitespace). -/
def trimChars (cs : List Char) : List Char :=
  ((cs.dropWhile Char.isWhitespace).reverse.dropWhile Char.isWhitespace).reverse

/-- String version of `trimChars`. -/
def trimStr (s : String) : String :=
  ⟨trimChars s.data⟩

/-- Split a character list at every occurrence of a separator character
(model of Rust `str::split(char)`, which keeps empty segments). -/
def splitChar (sep : Char) : List Char → List (List Char)
  | [] => [[]]
  | c :: rest =>
    let r := splitChar sep rest
    if c = sep then [] :: r
    else
      match r with
      | h :: t => (c :: h) :: t
      | [] => [[c]]

/-- String version of `splitChar`. -/
def splitStr (sep : Char) (s : String) : List String :=
  (splitChar sep s.data).map (fun cs => ⟨cs⟩)

/-- A compiled route (`struct CompiledRoute`): compiled pattern plus the
uppercased method list, `none` meaning "all methods". -/
structure CompiledRoute where
  re : CompiledPattern
  methods : Option (List String)
deriving DecidableEq, Repr

/-- The guard (`pub struct EGuard`); the HTTP client is fully described by
the configuration it is built from, so only `cfg` and `routes` are kept. -/
structure EGuard where
  cfg : EGuardConfig
  routes : List CompiledRoute
deriving DecidableEq, Repr

/-- Trust-service response (`pub struct TrustResponse`). -/
structure TrustResponse where
  session_id : String
  trust_score : ℚ
  reason : Option String
deriving DecidableEq, Repr

/-- Verdict (`pub enum Decision`). -/
inductive Decision where
  | Allow : Decision
  | Deny (status : ℕ) (message : String) : Decision
deriving DecidableEq, Repr

/-- Route compilation loop inside `EGuard::new`: each pattern is compiled,
its methods uppercased, and the first compilation failure aborts the whole
collection with a message naming the offending pattern and cause. -/
def compileRoutes : List SecureRoute → Except String (List CompiledRoute)
  | [] => .ok []
  | r :: rs =>
    match Regex.new r.path_pattern with
    | .error e => .error ("Invalid route regex " ++ r.path_pattern ++ ": " ++ e)
    | .ok re =>
      match compileRoutes rs with
      | .error e => .error e
      | .ok crs => .ok ({ re := re, methods := r.methods.map (List.map toUpperStr) } :: crs)

/-- Model of `EGuard::new`: build the client (modelled as infallible) and compile all
routes; any compilation error prevents the guard from being produced. -/
def EGuard.new (cfg : EGuardConfig) : Except String EGuard :=
  match compileRoutes cfg.secure_routes with
  | .error e => .error e
  | .ok routes => .ok { cfg := cfg, routes := routes }

/-- The per-route predicate inside `EGuard::is_secure`: the pattern must
match the path (unanchored search), and the method list, when present, must
contain the (already uppercased) request method. -/
def routeMatches (r : CompiledRoute) (path m : String) : Bool :=
  if !(r.re.isMatch path) then false
  else
    match r.methods with
    | none => true
    | some ms => ms.any (fun mm => mm == m)

/-- Model of `EGuard::is_secure`: uppercase the method, then OR the per-route
predicate across all compiled routes. -/
def EGuard.is_secure (g : EGuard) (path method : String) : Bool :=
  let m := toUpperStr method
  g.routes.any (fun r => routeMatches r path m)

/-- Split a character list at the first `=` (Rust `splitn(2, '=')` yielding
two pieces); `none` when no `=` occurs. -/
def splitOnceEq : List Char → Option (List Char × List Char)
  | [] => none
  | c :: rest =>
    if c = '=' then some ([], rest)
    else (splitOnceEq rest).map (fun kv => (c :: kv.1, kv.2))

/-- String version of `splitOnceEq`. -/
def splitn2Eq (s : String) : Option (String × String) :=
  (splitOnceEq s.data).map (fun kv => (⟨kv.1⟩, ⟨kv.2⟩))

/-- The cookie-scanning loop of `extract_session_id`: trim each `;`-segment,
split it at the first `=`, return the value of the first pair whose key
equals the configured cookie name; segments without `=` are passed over. -/
def findCookie (cookie_name : String) : List String → Option String
  | [] => none
  | pair :: rest =>
    match splitn2Eq (trimStr pair) with
    | some (k, v) => if k == cookie_name then some v else findCookie cookie_name rest
    | none => findCookie cookie_name rest

/-- The cookie arm of `extract_session_id`: only runs when a cookie name is
configured and a cookie header was supplied. -/
def cookieExtract (se : SessionExtraction) (cookies : Option String) : Option String :=
  match se.cookie_name, cookies with
  | some cn, some raw => findCookie cn (splitStr ';' raw)
  | _, _ => none

/-- Rust `str::eq_ignore_ascii_case`. -/
def eqIgnoreAsciiCase (a b : String) : Bool :=
  toLowerStr a == toLowerStr b

/-- Rust `str::strip_prefix` specialised to string prefixes. -/
def stripPrefixStr (p s : String) : Option String :=
  if p.data.isPrefixOf s.data then some ⟨s.data.drop p.data.length⟩ else none

/-- The header arm of `extract_session_id`: requires a configured header
name matching the supplied header name ASCII-case-insensitively; under
`header_bearer` the value is trimmed and a `"Bearer "` prefix of the trimmed
value is stripped, otherwise the raw value is returned. -/
def headerExtract (se : SessionExtraction) (hdr : Option (String × String)) : Option String :=
  match se.header_name, hdr with
  | some hn, some (name, val) =>
    if eqIgnoreAsciiCase hn name then
      if se.header_bearer then
        match stripPrefixStr "Bearer " (trimStr val) with
        | some rest => some rest
        | none => some val
      else some val
    else none
  | _, _ => none

/-- Model of `EGuard::extract_session_id`: the cookie arm returns first when it finds
a value; otherwise control falls through to the header arm. -/
def EGuard.extract_session_id (g : EGuard) (cookies : Option String)
    (header_name_val : Option (String × String)) : Option String :=
  match cookieExtract g.cfg.session_extraction cookies with
  | some v => some v
  | none => headerExtract g.cfg.session_extraction header_name_val

/-! Trust client and decision engine. -/

/-- What the network returned for the one GET request of `fetch_trust`.
`jsonTrust` is the outcome of the `resp.json::<TrustResponse>()` read the
code performs on success statuses; `textBody` is the outcome of the
`resp.text()` read performed on error statuses (`none` = read failed). -/
structure HttpResponse where
  status : ℕ
  jsonTrust : Except String TrustResponse
  textBody : Option String

/-- Outcome of `send().await`: transport failure (connection error or
timeout), or a response. -/
inductive HttpOutcome where
  | sendError (e : String) : HttpOutcome
  | response (r : HttpResponse) : HttpOutcome

/-- The distinguishable failures `fetch_trust` can produce. -/
inductive TrustError where
  | sendError (e : String) : TrustError
  | parseError (e : String) : TrustError
  | apiError (status : ℕ) (body : String) : TrustError
deriving DecidableEq, Repr

/-- Model of `StatusCode::is_success`: 200 ≤ status ≤ 299. -/
def statusIsSuccess (s : ℕ) : Bool :=
  200 ≤ s && s < 300

/-- Model of `EGuard::fetch_trust`, with the network modelled by an explicit
`HttpOutcome`: 2xx parses the JSON body (parse failure propagates), 404
synthesizes the unknown-session response, anything else is an error carrying
the status and the best-effort body text. -/
def EGuard.fetch_trust (g : EGuard) (session_id : String) (net : HttpOutcome) :
    Except TrustError TrustResponse :=
  match net with
  | .sendError e => .error (.sendError e)
  | .response r =>
    if statusIsSuccess r.status then
      match r.jsonTrust with
      | .ok t => .ok t
      | .error e => .error (.parseError e)
    else if r.status = 404 then
      .ok { session_id := session_id, trust_score := 0, reason := some "unknown_session" }
    else
      .error (.apiError r.status (r.textBody.getD ""))

/-- Model of `EGuard::decide`: fetch the trust response (errors propagate unchanged)
and compare the score against the configured threshold. -/
def EGuard.decide (g : EGuard) (session_id : String) (net : HttpOutcome) :
    Except TrustError Decision :=
  match g.fetch_trust session_id net with
  | .error e => .error e
  | .ok trust =>
    if trust.trust_score ≥ g.cfg.min_trust_score then
      .ok .Allow
    else
      .ok (.Deny 403 ("Low trust score: " ++ toString trust.trust_score))

/-! Node binding data model (from `crates/eguard-node/src/lib.rs`). -/

/-- Route rule as received from JavaScript (`struct JsSecureRoute`). -/
structure JsSecureRoute where
  path_pattern : String
  methods : Option (List String)
deriving DecidableEq, Repr

/-- Session-extraction options as received from JavaScript
(`struct JsSessionExtraction`); `header_bearer` is optional there. -/
structure JsSessionExtraction where
  cookie_name : Option String
  header_name : Option String
  header_bearer : Option Bool
deriving DecidableEq, Repr

/-- Guard configuration as received from JavaScript (`struct JsEGuardConfig`);
its `f64` score is modelled as `ℚ`. -/
structure JsEGuardConfig where
  api_base_url : String
  api_key : String
  secure_routes : List JsSecureRoute
  session_extraction : JsSessionExtraction
  min_trust_score : ℚ
  timeout_ms : Option ℕ
deriving DecidableEq, Repr

/-- Verdict shape delivered to JavaScript (`struct JsDecision`). -/
structure JsDecision where
  allow : Bool
  status : Option ℕ
  message : Option String
deriving DecidableEq, Repr

/-- The binding object (`struct JsEGuard`) wrapping the core guard. -/
structure JsEGuard where
  inner : EGuard
deriving DecidableEq, Repr

/-- Model of `JsEGuard::new`: translate the JavaScript configuration
(defaulting `header_bearer` to `false` and `timeout_ms` to 1500, narrowing
the score) and build the core guard; construction errors surface as the
napi error message. -/
def JsEGuard.new (cfg : JsEGuardConfig) : Except String JsEGuard :=
  let core_cfg : EGuardConfig := {
    api_base_url := cfg.api_base_url,
    api_key := cfg.api_key,
    secure_routes := cfg.secure_routes.map
      (fun r => { path_pattern := r.path_pattern, methods := r.methods }),
    session_extraction := {
      cookie_name := cfg.session_extraction.cookie_name,
      header_name := cfg.session_extraction.header_name,
      header_bearer := cfg.session_extraction.header_bearer.getD false },
    min_trust_score := cfg.min_trust_score,
    timeout_ms := cfg.timeout_ms.getD 1500 }
  match EGuard.new core_cfg with
  | .ok inner => .ok { inner := inner }
  | .error e => .error e

/-- Model of `JsEGuard::is_secure`: direct delegation. -/
def JsEGuard.is_secure (g : JsEGuard) (path method : String) : Bool :=
  g.inner.is_secure path method

/-- Model of `JsEGuard::extract_session_id`: the header pair is forwarded
only when both the name and the value were supplied; any partial pair is
replaced by no pair at all. -/
def JsEGuard.extract_session_id (g : JsEGuard) (cookie_header : Option String)
    (header_name header_value : Option String) : Option String :=
  match header_name, header_value with
  | some n, some v => g.inner.extract_session_id cookie_header (some (n, v))
  | _, _ => g.inner.extract_session_id cookie_header none

/-- Rendering of a `TrustError` as the `anyhow`/napi error message text. -/
def TrustError.render : TrustError → String
  | .sendError e => e
  | .parseError e => e
  | .apiError status body => "Trust API error " ++ toString status ++ ": " ++ body

/-- Model of `Task::resolve` for `DecideTask`: translate the core `Decision`
into the `JsDecision` shape delivered to the host. -/
def resolveDecision : Decision → JsDecision
  | .Allow => { allow := true, status := none, message := none }
  | .Deny status message => { allow := false, status := some status, message := some message }

/-- Model of the full `JsEGuard::decide` task (`compute` + `resolve`): run
the core decision and translate its outcome. -/
def JsEGuard.decide (g : JsEGuard) (session_id : String) (net : HttpOutcome) :
    Except String JsDecision :=
  match g.inner.decide session_id net with
  | .error e => .error e.render
  | .ok d => .ok (resolveDecision d)

/-! Spec-side definitions: readings asserted by the specification, written
from its words, to be compared with the source-derived definitions above. -/

/-- The specification's reading of route matching (claim C1): the pattern
must match the *entire* path (full-pattern match), not merely some
substring of it. -/
def is_secure_fullmatch_spec (g : EGuard) (path method : String) : Bool :=
  let m := toUpperStr method
  g.routes.any fun r =>
    r.re.fullMatch path &&
      match r.methods with
      | none => true
      | some ms => ms.any (fun mm => mm == m)

/-- The specification's reading of bearer unwrapping (claim C3): strip a
literal `"Bearer "` prefix from the raw header value when present, otherwise
pass the raw value through unchanged. -/
def bearerStripSpec (val : String) : String :=
  match stripPrefixStr "Bearer " val with
  | some rest => rest
  | none => val

/-- The specification's description of the cookie scan (claim C8), stated
via `findSome?`: split on `;`, trim each segment, split each at the first
`=`, take the value of the first pair whose key equals the cookie name, and
skip segments without `=`. -/
def cookieScanSpec (cn raw : String) : Option String :=
  (splitStr ';' raw).findSome? fun seg =>
    match splitn2Eq (trimStr seg) with
    | some (k, v) => if k == cn then some v else none
    | none => none

/-! Helper lemmas shared across the claims. -/

theorem routeMatches_iff (r : CompiledRoute) (path m : String) :
    routeMatches r path m = true ↔
      r.re.isMatch path = true ∧
        (r.methods = none ∨ ∃ ms, r.methods = some ms ∧ m ∈ ms) := by
  unfold routeMatches
  cases h : r.re.isMatch path with
  | false => simp
  | true =>
    cases hm : r.methods with
    | none => simp
    | some ms => simp [List.any_eq_true]

theorem headerExtract_no_pair (se : SessionExtraction) : headerExtract se none = none := by
  rcases se with ⟨cn, hn, hb⟩
  cases hn <;> rfl

theorem findCookie_eq_findSome? (cn : String) :
    ∀ segs : List String, findCookie cn segs =
      segs.findSome? fun seg =>
        match splitn2Eq (trimStr seg) with
        | some (k, v) => if k == cn then some v else none
        | none => none
  | [] => rfl
  | seg :: rest => by
    rw [List.findSome?_cons]
    cases h : splitn2Eq (trimStr seg) with
    | none => simp [findCookie, h, findCookie_eq_findSome? cn rest]
    | some kv =>
      obtain ⟨k, v⟩ := kv
      by_cases hk : k == cn
      · simp [findCookie, h, hk]
      · simp [findCookie, h, hk, findCookie_eq_findSome? cn rest]

/-! Claim C1. -/

/-- C1 (amended): `is_secure(path, method)` returns true iff at least one
compiled route matches, where a route matches iff its pattern matches
*somewhere within* `path` (unanchored regex search, as performed by
`Regex::is_match`; anchors in the pattern itself constrain the match to the
start/end of the path) AND its method set is unset OR contains the
uppercased method; the result is a logical OR across all configured rules
with no precedence among them. -/
theorem is_secure_iff_any_route (g : EGuard) (path method : String) :
    g.is_secure path method = true ↔
      ∃ r ∈ g.routes, r.re.isMatch path = true ∧
        (r.methods = none ∨ ∃ ms, r.methods = some ms ∧ toUpperStr method ∈ ms) := by
  unfold EGuard.is_secure
  simp only [List.any_eq_true, routeMatches_iff]

/-- Configuration with a single, anchor-free route pattern, used to separate
substring search from full-pattern matching. -/
def cfgC1 : EGuardConfig :=
  { api_base_url := "http://trust.local",
    api_key := "k",
    secure_routes := [{ path_pattern := "/admin", methods := none }],
    session_extraction := { cookie_name := none, header_name := none, header_bearer := false },
    min_trust_score := 0,
    timeout_ms := 1500 }

/-- The guard compiled from `cfgC1`. -/
def gC1 : EGuard :=
  match EGuard.new cfgC1 with
  | .ok g => g
  | .error _ => { cfg := cfgC1, routes := [] }

/-- C1 (counterexample): with the configured pattern `"/admin"` and the path
`"/x/adminz"`, the code's `is_secure` returns true (the pattern matches a
substring of the path) while the claimed full-pattern reading is false, so
`is_secure` does not implement full-pattern matching. -/
theorem is_secure_fullmatch_counterexample :
    EGuard.new cfgC1 = .ok gC1 ∧
    gC1.is_secure "/x/adminz" "GET" = true ∧
    is_secure_fullmatch_spec gC1 "/x/adminz" "GET" = false :=
  ⟨rfl, by decide, by decide⟩

/-! Claim C2. -/

/-- C2: for every session id and every trust response obtained without
error, `decide` returns `Allow` iff `trust_score >= min_trust_score`
(inclusive at the boundary), and otherwise returns `Deny` with status 403
and message `"Low trust score: "` followed by the score. -/
theorem decide_threshold (g : EGuard) (sid : String) (net : HttpOutcome)
    (t : TrustResponse) (h : g.fetch_trust sid net = .ok t) :
    (g.decide sid net = .ok .Allow ↔ t.trust_score ≥ g.cfg.min_trust_score) ∧
    (¬ t.trust_score ≥ g.cfg.min_trust_score →
       g.decide sid net = .ok (.Deny 403 ("Low trust score: " ++ toString t.trust_score))) := by
  unfold EGuard.decide
  rw [h]
  by_cases hc : t.trust_score ≥ g.cfg.min_trust_score <;> simp [hc]

/-- Guard whose threshold sits exactly at 1, for the boundary case. -/
def gC2 : EGuard :=
  { cfg := { api_base_url := "http://t",
             api_key := "k",
             secure_routes := [],
             session_extraction := { cookie_name := none, header_name := none, header_bearer := false },
             min_trust_score := 1,
             timeout_ms := 1500 },
    routes := [] }

/-- Network outcome delivering a parsed trust score exactly at the
threshold. -/
def netC2 : HttpOutcome :=
  .response { status := 200,
              jsonTrust := .ok { session_id := "s", trust_score := 1, reason := none },
              textBody := none }

/-- C2 (witness): a score exactly equal to the threshold yields `Allow`. -/
theorem decide_threshold_witness : gC2.decide "s" netC2 = .ok .Allow :=
  (decide_threshold gC2 "s" netC2
    { session_id := "s", trust_score := 1, reason := none } rfl).1.mpr (by decide)

/-! Claim C3. -/

/-- Guard configured for bearer header extraction only. -/
def gC3 : EGuard :=
  { cfg := { api_base_url := "http://t",
             api_key := "k",
             secure_routes := [],
             session_extraction := { cookie_name := none,
                                     header_name := some "Authorization",
                                     header_bearer := true },
             min_trust_score := 0,
             timeout_ms := 1500 },
    routes := [] }

/-- C3 (counterexample): for the header value `"Bearer abc "` the claim
prescribes stripping the literal prefix from the raw value, giving
`"abc "`; the code first trims the value and returns `"abc"`, so the two
disagree. -/
theorem bearer_strip_counterexample :
    gC3.extract_session_id none (some ("Authorization", "Bearer abc ")) = some "abc" ∧
    bearerStripSpec "Bearer abc " = "abc " ∧
    ("abc" : String) ≠ "abc " :=
  ⟨by decide, by decide, by decide⟩

/-- C3 (amended): when cookie extraction yields nothing, a header name is
configured and matches the supplied name case-insensitively, and
`header_bearer` is true, `extract_session_id` returns the *trimmed* value
with the literal `"Bearer "` prefix stripped when the trimmed value starts
with it, and otherwise returns the raw value unchanged (passthrough, not a
failure). -/
theorem bearer_strip_amended (g : EGuard) (cookies : Option String)
    (hname name val : String)
    (hc : cookieExtract g.cfg.session_extraction cookies = none)
    (hn : g.cfg.session_extraction.header_name = some hname)
    (hm : eqIgnoreAsciiCase hname name = true)
    (hb : g.cfg.session_extraction.header_bearer = true) :
    g.extract_session_id cookies (some (name, val)) =
      some (match stripPrefixStr "Bearer " (trimStr val) with
            | some rest => rest
            | none => val) := by
  unfold EGuard.extract_session_id
  rw [hc]
  unfold headerExtract
  rw [hn]
  simp only [hm, hb, if_true]
  cases h : stripPrefixStr "Bearer " (trimStr val) <;> simp [h]

/-- C3 (witness for the amended claim): a value without surrounding
whitespace is stripped exactly as the original claim describes. -/
theorem bearer_strip_amended_witness :
    gC3.extract_session_id none (some ("authorization", "Bearer tok1")) = some "tok1" :=
  (bearer_strip_amended gC3 none "Authorization" "authorization" "Bearer tok1"
    (by decide) (by decide) (by decide) (by decide)).trans (by decide)

/-! Claim C4. -/

/-- C4: when the trust service responds with HTTP 404, `fetch_trust` does
not return an error: it returns the synthesized `TrustResponse` with that
session id, trust score 0, and reason `"unknown_session"`, so the
unknown-session case flows through the normal decision path. -/
theorem fetch_trust_404 (g : EGuard) (sid : String) (r : HttpResponse)
    (h : r.status = 404) :
    g.fetch_trust sid (.response r) =
      .ok { session_id := sid, trust_score := 0, reason := some "unknown_session" } := by
  obtain ⟨st, jt, tb⟩ := r
  have h' : st = 404 := h
  subst h'
  simp [EGuard.fetch_trust, statusIsSuccess]

/-- A 404 trust-service response (its body fields are never consulted). -/
def netC4 : HttpResponse :=
  { status := 404, jsonTrust := .error "no body", textBody := some "not found" }

/-- C4 (witness): the ghost session's 404 becomes the synthetic response. -/
theorem fetch_trust_404_witness :
    gC2.fetch_trust "ghost" (.response netC4) =
      .ok { session_id := "ghost", trust_score := 0, reason := some "unknown_session" } :=
  fetch_trust_404 gC2 "ghost" netC4 rfl

/-! Claim C5. -/

/-- C5: when the cookie arm finds a value, `extract_session_id` returns it
even though the configured header name also matches the supplied header
(cookie extraction takes precedence; the header is only consulted when the
cookie arm yields nothing). -/
theorem cookie_precedence (g : EGuard) (cookies : Option String)
    (hname name val v : String)
    (hc : cookieExtract g.cfg.session_extraction cookies = some v)
    (hn : g.cfg.session_extraction.header_name = some hname)
    (hm : eqIgnoreAsciiCase hname name = true) :
    g.extract_session_id cookies (some (name, val)) = some v := by
  unfold EGuard.extract_session_id
  rw [hc]

/-- Guard configured with both a cookie name and a header name. -/
def gC5 : EGuard :=
  { cfg := { api_base_url := "http://t",
             api_key := "k",
             secure_routes := [],
             session_extraction := { cookie_name := some "sid",
                                     header_name := some "X-Session",
                                     header_bearer := false },
             min_trust_score := 0,
             timeout_ms := 1500 },
    routes := [] }

/-- C5 (witness): with a matching cookie and a matching header present, the
cookie value wins. -/
theorem cookie_precedence_witness :
    gC5.extract_session_id (some "sid=fromcookie") (some ("X-Session", "fromheader")) =
      some "fromcookie" :=
  cookie_precedence gC5 (some "sid=fromcookie") "X-Session" "X-Session" "fromheader"
    "fromcookie" (by decide) (by decide) (by decide)

/-! Claim C6. -/

/-- C6: `fetch_trust` returns an error exactly when the network call fails,
or the response status is neither 2xx nor 404, or a 2xx body fails to parse
as `TrustResponse`; in the non-2xx/non-404 case the error carries the
status code and the response body text (empty string if the body read
fails), and a 2xx parse failure is propagated, not swallowed. -/
theorem fetch_trust_error_iff (g : EGuard) (sid : String) (net : HttpOutcome) :
    ((∃ err, g.fetch_trust sid net = .error err) ↔
      (∃ e, net = .sendError e) ∨
      (∃ r, net = .response r ∧ statusIsSuccess r.status = false ∧ r.status ≠ 404) ∨
      (∃ r e, net = .response r ∧ statusIsSuccess r.status = true ∧ r.jsonTrust = .error e)) ∧
    (∀ r, net = .response r → statusIsSuccess r.status = false → r.status ≠ 404 →
       g.fetch_trust sid net = .error (.apiError r.status (r.textBody.getD ""))) ∧
    (∀ r e, net = .response r → statusIsSuccess r.status = true → r.jsonTrust = .error e →
       g.fetch_trust sid net = .error (.parseError e)) := by
  refine ⟨?_, ?_, ?_⟩
  · cases net with
    | sendError e => simp [EGuard.fetch_trust]
    | response r =>
      obtain ⟨st, jt, tb⟩ := r
      cases hs : statusIsSuccess st with
      | true =>
        cases hj : jt with
        | ok t => simp [EGuard.fetch_trust, hs, hj]
        | error e => simp [EGuard.fetch_trust, hs, hj]
      | false =>
        by_cases h4 : st = 404
        · subst h4
          simp [EGuard.fetch_trust, hs, statusIsSuccess]
        · simp [EGuard.fetch_trust, hs, h4]
  · rintro r rfl hs h4
    simp [EGuard.fetch_trust, hs, h4]
  · rintro r e rfl hs hj
    simp [EGuard.fetch_trust, hs, hj]

/-- A 503 trust-service response whose body read succeeds. -/
def netC6 : HttpOutcome :=
  .response { status := 503, jsonTrust := .error "unread", textBody := some "service down" }

/-- C6 (witness): a 503 yields the error carrying the status and body. -/
theorem fetch_trust_error_iff_witness :
    gC2.fetch_trust "s" netC6 =
      .error (.apiError 503 "service down") :=
  (fetch_trust_error_iff gC2 "s" netC6).2.1
    { status := 503, jsonTrust := .error "unread", textBody := some "service down" }
    rfl (by decide) (by decide)

/-! Claim C7. -/

theorem compileRoutes_error :
    ∀ rs : List SecureRoute,
      (∃ r ∈ rs, ∃ e, Regex.new r.path_pattern = .error e) →
      ∃ r ∈ rs, ∃ e, Regex.new r.path_pattern = .error e ∧
        compileRoutes rs = .error ("Invalid route regex " ++ r.path_pattern ++ ": " ++ e)
  | [], h => by simp at h
  | r :: rs, h => by
    cases hr : Regex.new r.path_pattern with
    | error e =>
      exact ⟨r, List.mem_cons_self r rs, e, hr, by simp [compileRoutes, hr]⟩
    | ok re =>
      have htail : ∃ r' ∈ rs, ∃ e, Regex.new r'.path_pattern = .error e := by
        rcases h with ⟨r', hr', e, he⟩
        rcases List.mem_cons.mp hr' with rfl | hmem
        · rw [hr] at he; cases he
        · exact ⟨r', hmem, e, he⟩
      obtain ⟨r', hmem, e, he, hcomp⟩ := compileRoutes_error rs htail
      refine ⟨r', List.mem_cons_of_mem _ hmem, e, he, ?_⟩
      simp [compileRoutes, hr, hcomp]

/-- C7: a configuration containing a route whose pattern fails to compile
never produces a guard: `EGuard::new` returns the error naming one
offending pattern string and its cause (construction is all-or-nothing). -/
theorem new_invalid_pattern (cfg : EGuardConfig)
    (h : ∃ r ∈ cfg.secure_routes, ∃ e, Regex.new r.path_pattern = .error e) :
    ∃ r ∈ cfg.secure_routes, ∃ e, Regex.new r.path_pattern = .error e ∧
      EGuard.new cfg = .error ("Invalid route regex " ++ r.path_pattern ++ ": " ++ e) := by
  obtain ⟨r, hmem, e, he, hcomp⟩ := compileRoutes_error cfg.secure_routes h
  exact ⟨r, hmem, e, he, by simp [EGuard.new, hcomp]⟩

/-- Configuration whose second route pattern has an unbalanced `(`. -/
def cfgC7 : EGuardConfig :=
  { api_base_url := "http://t",
    api_key := "k",
    secure_routes := [{ path_pattern := "/ok", methods := none },
                      { path_pattern := "/admin(", methods := some ["GET"] }],
    session_extraction := { cookie_name := none, header_name := none, header_bearer := false },
    min_trust_score := 0,
    timeout_ms := 1500 }

/-- C7 (witness): construction on `cfgC7` fails, naming `"/admin("`. -/
theorem new_invalid_pattern_witness :
    ∃ r ∈ cfgC7.secure_routes, ∃ e, Regex.new r.path_pattern = .error e ∧
      EGuard.new cfgC7 = .error ("Invalid route regex " ++ r.path_pattern ++ ": " ++ e) :=
  new_invalid_pattern cfgC7
    ⟨{ path_pattern := "/admin(", methods := some ["GET"] }, by decide, "unclosed group", rfl⟩

/-! Claim C8. -/

/-- C8: when a cookie name is configured and the cookie header is present,
`extract_session_id` splits the header on `;`, trims each segment, splits
each segment at the first `=`, and returns the value of the first pair
whose key exactly (case-sensitively) equals the cookie name; segments
without `=` are skipped without aborting the scan of the remaining
segments. -/
theorem cookie_parse (g : EGuard) (cn raw : String) (hdr : Option (String × String))
    (h1 : g.cfg.session_extraction.cookie_name = some cn) :
    (∀ v, cookieScanSpec cn raw = some v →
       g.extract_session_id (some raw) hdr = some v) ∧
    (∀ seg rest, splitn2Eq (trimStr seg) = none →
       findCookie cn (seg :: rest) = findCookie cn rest) := by
  constructor
  · intro v hv
    unfold EGuard.extract_session_id cookieExtract
    rw [h1]
    have hfind : findCookie cn (splitStr ';' raw) = some v := by
      rw [findCookie_eq_findSome?]
      exact hv
    simp [hfind]
  · intro seg rest hseg
    simp [findCookie, hseg]

/-- Guard configured with cookie name `"sid"` only. -/
def gC8 : EGuard :=
  { cfg := { api_base_url := "http://t",
             api_key := "k",
             secure_routes := [],
             session_extraction := { cookie_name := some "sid",
                                     header_name := none,
                                     header_bearer := false },
             min_trust_score := 0,
             timeout_ms := 1500 },
    routes := [] }

/-- C8 (witness): the spec's own example, with a malformed `"novalue"`
segment in the middle that is skipped. -/
theorem cookie_parse_witness :
    gC8.extract_session_id (some "a=1; novalue; sid=xyz; b=2") none = some "xyz" :=
  (cookie_parse gC8 "sid" "a=1; novalue; sid=xyz; b=2" none (by decide)).1 "xyz" (by decide)

/-! Claim C9. -/

/-- C9: in the Node binding, supplying exactly one of the header name and
header value behaves identically to supplying no header pair at all, and
with no pair only cookie extraction can yield a session id. -/
theorem js_partial_header_ignored (g : JsEGuard) (ch : Option String) (n v : String) :
    g.extract_session_id ch (some n) none = g.extract_session_id ch none none ∧
    g.extract_session_id ch none (some v) = g.extract_session_id ch none none ∧
    g.extract_session_id ch none none = cookieExtract g.inner.cfg.session_extraction ch := by
  refine ⟨rfl, rfl, ?_⟩
  unfold JsEGuard.extract_session_id EGuard.extract_session_id
  cases h : cookieExtract g.inner.cfg.session_extraction ch <;>
    simp [h, headerExtract_no_pair]

/-! Claim C10. -/

/-- C10: every `JsDecision` obtained by resolving a successful core decision
satisfies the shape invariant: `allow` is true iff both `status` and
`message` are absent, and `allow` is false iff `status` is present (and then
always 403) and `message` is present; no mixed shape is produced. -/
theorem jsDecision_shape (g : EGuard) (sid : String) (net : HttpOutcome) (d : Decision)
    (h : g.decide sid net = .ok d) :
    ((resolveDecision d).allow = true ↔
       (resolveDecision d).status = none ∧ (resolveDecision d).message = none) ∧
    ((resolveDecision d).allow = false ↔
       (resolveDecision d).status = some 403 ∧ ∃ m, (resolveDecision d).message = some m) := by
  have hd : d = .Allow ∨ ∃ msg, d = .Deny 403 msg := by
    unfold EGuard.decide at h
    cases hf : g.fetch_trust sid net with
    | error e => rw [hf] at h; cases h
    | ok t =>
      rw [hf] at h
      by_cases hc : t.trust_score ≥ g.cfg.min_trust_score
      · left
        simp [hc] at h
        exact h.symm
      · right
        simp [hc] at h
        exact ⟨_, h.symm⟩
  rcases hd with rfl | ⟨msg, rfl⟩ <;> simp [resolveDecision]

/-- Guard with a strictly positive threshold, driving a denial. -/
def gC10 : EGuard :=
  { cfg := { api_base_url := "http://t",
             api_key := "k",
             secure_routes := [],
             session_extraction := { cookie_name := none, header_name := none, header_bearer := false },
             min_trust_score := 1,
             timeout_ms := 1500 },
    routes := [] }

/-- Network outcome for an unknown session (404). -/
def netC10 : HttpOutcome :=
  .response { status := 404, jsonTrust := .error "no body", textBody := none }

/-- C10 (witness): resolving the denial produced for a zero-score session
exhibits the deny shape: `allow` false, `status` present and 403, `message`
present. -/
theorem jsDecision_shape_witness :
    (resolveDecision (.Deny 403 "Low trust score: 0")).allow = false ↔
      (resolveDecision (.Deny 403 "Low trust score: 0")).status = some 403 ∧
      ∃ m, (resolveDecision (.Deny 403 "Low trust score: 0")).message = some m :=
  (jsDecision_shape gC10 "ghost" netC10 (.Deny 403 "Low trust score: 0") rfl).2
